import Mathlib

/-!
Verification development for the CodeQueryX retrieval-and-budgeting pipeline.

The Python sources are shallowly embedded:
strings become `List Char`, Python `int` arithmetic that can go negative
becomes `Int`, chunk dictionaries become the `Doc` structure, and the
external generative call becomes an explicit function parameter returning
`Except` (an `Except.error` models a raised exception caught by the
`except Exception` handler).  Token counting models the deterministic
fallback branch of `RAGEngine.count_tokens` (`len(text) // 4`); the primary
branch delegates to the external `tiktoken` library, which is not part of
this repository.  Python's `sorted(..., key=...)` is a stable sort, and a
stable sort by a total key comparison is unique, so it is embedded as
`List.insertionSort` on the key, which Mathlib shows is stable.
-/

namespace CodeQueryX

/-- Python strings are embedded as lists of characters. -/
abbrev Str := List Char

/-- Coerce a Lean string literal to the embedding of Python strings. -/
def strOf (s : String) : Str := s.data

/-- A chunk dictionary as produced by the chunker and consumed by
`RAGEngine`; the engine only reads the keys `content` and `filepath`. -/
structure Doc where
  content : Str
  filepath : Str
deriving DecidableEq

/-- Embeds `RAGEngine.count_tokens`, deterministic fallback branch:
`len(text) // 4`. -/
def count_tokens (s : Str) : Nat := s.length / 4

/-- Embeds `self.max_context_tokens = 10000` from `RAGEngine.__init__`. -/
def max_context_tokens : Nat := 10000

/-- The part of the `base_prompt` f-string template of
`RAGEngine.select_chunks_within_limit` that precedes the query. -/
def bpPre : Str := strOf "You are a helpful code assistant. Answer the user\x27s question based on the provided code context.\n\nContext from the codebase:\n\nUser Question: "

/-- The part of the prompt templates that follows the query (shared by
`select_chunks_within_limit` and `create_prompt`). -/
def bpPost : Str := strOf "\n\nInstructions:\n- Answer based on the provided code context\n- Be specific and reference file names when relevant\n- If the context doesn\x27t contain enough information, say so\n- Provide code examples if helpful\n- Be concise but thorough\n- If asked to summarise what the project does,explain what the project does,you do not need to cite code examples for that\n\nAnswer:"

/-- Embeds the `base_prompt` f-string of `select_chunks_within_limit`. -/
def basePrompt (query : Str) : Str := bpPre ++ query ++ bpPost

/-- Embeds the per-chunk rendering
`f"\n--- Code Snippet (n) from (filepath) ---\n(content)\n"` used both by
`select_chunks_within_limit` (with `n = len(selected_chunks) + 1`) and by
`create_prompt` (with `n = i` from `enumerate(context_chunks, 1)`). -/
def chunkRender (n : Nat) (fp content : Str) : Str :=
  strOf "\n--- Code Snippet " ++ Nat.toDigits 10 n ++ strOf " from " ++ fp
    ++ strOf " ---\n" ++ content ++ strOf "\n"

/-- Embeds the `header_text` f-string
`f"\n--- Code Snippet 1 from (filepath) ---\n\n"` of the truncation branch. -/
def truncHeader (fp : Str) : Str :=
  strOf "\n--- Code Snippet 1 from " ++ fp ++ strOf " ---\n\n"

/-- The Python truncation marker `"..."`. -/
def ellipsis : Str := strOf "..."

/-- Rendered token cost of one chunk at (1-based) position `n` in the
accepted sequence. -/
def chunkCost (n : Nat) (d : Doc) : Nat :=
  count_tokens (chunkRender n d.filepath d.content)

/-- Embeds the `for`/`break` loop of `RAGEngine.select_chunks_within_limit`
(lines 59-94): `sel` is `selected_chunks`, `cur` is `current_tokens`, and
the list argument is the unprocessed remainder of `sorted_chunks`.
Reaching the `else` branch models the `break`. -/
def selectLoop (avail : Int) : List (Doc × ℚ) → List Doc → Nat → List Doc
  | [], sel, _ => sel
  | (doc, _) :: rest, sel, cur =>
    let ctok := chunkCost (sel.length + 1) doc
    if (cur : Int) + ctok ≤ avail then
      selectLoop avail rest (sel ++ [doc]) (cur + ctok)
    else
      if sel.length = 0 ∧ 200 < avail then
        let htok := count_tokens (truncHeader doc.filepath)
        let maxct : Int := avail - htok
        if 50 < maxct then
          let maxchars : Int := maxct * 3
          let tcontent :=
            if maxchars < (doc.content.length : Int) then
              doc.content.take maxchars.toNat ++ ellipsis
            else doc.content
          sel ++ [{ doc with content := tcontent }]
        else sel
      else sel

/-- Embeds `sorted(retrieved_chunks, key=lambda x: x[1])`.  Python's
`sorted` is stable; a stable sort by a total key order is unique, and
`List.insertionSort` with this comparison is that stable sort. -/
def sortByDistance (l : List (Doc × ℚ)) : List (Doc × ℚ) :=
  List.insertionSort (fun a b => a.2 ≤ b.2) l

/-- Embeds `available_tokens = self.max_context_tokens - base_tokens - 200`
(Python `int`, so the value may be negative). -/
def availableTokens (query : Str) : Int :=
  (max_context_tokens : Int) - count_tokens (basePrompt query) - 200

/-- Embeds `RAGEngine.select_chunks_within_limit`. -/
def select_chunks_within_limit (retrieved : List (Doc × ℚ)) (query : Str) :
    List Doc :=
  selectLoop (availableTokens query) (sortByDistance retrieved) [] 0

/-- Embeds the `context_text` accumulation of `RAGEngine.create_prompt`
(`for i, chunk in enumerate(context_chunks, 1)`). -/
def contextText : Nat → List Doc → Str
  | _, [] => []
  | i, d :: ds => chunkRender i d.filepath d.content ++ contextText (i + 1) ds

/-- The part of the `create_prompt` template preceding `context_text`. -/
def cpPre : Str := strOf "You are a helpful code assistant. Answer the user\x27s question based on the provided code context.\n\nContext from the codebase:\n"

/-- The part of the `create_prompt` template between `context_text` and the
query. -/
def cpMid : Str := strOf "\n\nUser Question: "

/-- The fully rendered prompt assembled by `RAGEngine.create_prompt`. -/
def renderPrompt (query : Str) (chunks : List Doc) : Str :=
  cpPre ++ contextText 1 chunks ++ cpMid ++ query ++ bpPost

/-- The message of the `ValueError` raised by `create_prompt`:
`f"Prompt exceeds token limit: (prompt_tokens) > (max_context_tokens)"`. -/
def sizingMsg (ptok budget : Nat) : Str :=
  strOf "Prompt exceeds token limit: " ++ Nat.toDigits 10 ptok
    ++ strOf " > " ++ Nat.toDigits 10 budget

/-- Embeds `RAGEngine.create_prompt`; `Except.error` models the raised
`ValueError` carrying its message. -/
def create_prompt (query : Str) (chunks : List Doc) : Except Str Str :=
  let prompt := renderPrompt query chunks
  let ptok := count_tokens prompt
  if max_context_tokens < ptok then
    Except.error (sizingMsg ptok max_context_tokens)
  else Except.ok prompt

/-- The textual error payload
`f"Error generating answer: (str(e))"` of `RAGEngine.generate_answer`. -/
def errPayload (msg : Str) : Str := strOf "Error generating answer: " ++ msg

/-- Embeds `RAGEngine.generate_answer`.  The external Groq completion call
is the parameter `llm`; `Except.error e` models an exception with message
`e`.  The `try` block wraps both `create_prompt` and the external call, and
the `except Exception` handler converts either failure into the textual
payload. -/
def generate_answer (llm : Str → Except Str Str) (query : Str)
    (chunks : List Doc) : Str :=
  match create_prompt query chunks with
  | Except.error e => errPayload e
  | Except.ok prompt =>
    match llm prompt with
    | Except.ok ans => ans
    | Except.error e => errPayload e

/-- One element of the `sources` list built by `RAGEngine.answer_question`. -/
structure Citation where
  filepath : Str
  score : ℚ
  preview : Str
deriving DecidableEq

/-- The citation dictionary appended for a retrieved `(doc, score)` pair:
`filepath`, `score`, and `doc.get('content', '')[:200] + '...'`. -/
def mkCitation (d : Doc) (s : ℚ) : Citation :=
  ⟨d.filepath, s, d.content.take 200 ++ ellipsis⟩

/-- The result bundle returned by `RAGEngine.answer_question`. -/
structure QAResult where
  answer : Str
  sources : List Citation
  chunks_used : Nat
  chunks_retrieved : Nat
deriving DecidableEq

/-- Embeds `RAGEngine.answer_question`.  The `selected_filepaths` set
becomes membership in the list of accepted filepaths; the note appended to
the answer on line 182 is the empty string, so the answer is unchanged. -/
def answer_question (llm : Str → Except Str Str) (query : Str)
    (retrieved : List (Doc × ℚ)) : QAResult :=
  let context_chunks := select_chunks_within_limit retrieved query
  let answer := generate_answer llm query context_chunks
  let selectedPaths := context_chunks.map Doc.filepath
  let sources := retrieved.filterMap fun p =>
    if p.1.filepath ∈ selectedPaths then some (mkCitation p.1 p.2) else none
  ⟨answer, sources, context_chunks.length, retrieved.length⟩

/-- Embeds the `CodeChunker` configuration.  `CodeChunker.__init__` stores
`chunk_size` and `chunk_overlap` without any validation, so construction
succeeds for every pair of values. -/
structure CodeChunker where
  chunk_size : Nat
  chunk_overlap : Nat
deriving DecidableEq

/-- Embeds `CodeChunker.__init__(chunk_size, chunk_overlap)`: it only
assigns the two fields; there is no validity check. -/
def CodeChunker.init (size overlap : Nat) : CodeChunker := ⟨size, overlap⟩

/-- Embeds Python's `str.rfind(c)` restricted to a found/not-found answer:
the index of the last occurrence of `c`, or `none` (Python's `-1`). -/
def rfindChar (c : Char) : Str → Option Nat
  | [] => none
  | a :: as =>
    match rfindChar c as with
    | some i => some (i + 1)
    | none => if a = c then some 0 else none

/-- Embeds the `while start < len(text)` loop of `CodeChunker.chunk_text`,
with explicit fuel because the Python loop need not terminate (`start`
advances by `end - overlap - start`, which can be zero or negative).
`none` means the fuel ran out, i.e. the Python loop is still running after
that many iterations.  The Python guard `last_newline > self.chunk_size // 2`
compares the `rfind` result (`-1` when absent) against `size // 2`, which is
the `some ln` branch here; on the inputs of the claims below the shortened
`start` (`start + ln - overlap`) never goes below zero, so `Nat` arithmetic
agrees with Python's. -/
def chunkTextLoop (size overlap : Nat) (text : Str) :
    Nat → Nat → Option (List Str)
  | 0, _ => none
  | fuel + 1, start =>
    if start < text.length then
      let window := (text.drop start).take size
      let cut :=
        if start + size < text.length then
          match rfindChar '\n' window with
          | some ln => if size / 2 < ln then some ln else none
          | none => none
        else none
      match cut with
      | some ln =>
        match chunkTextLoop size overlap text fuel (start + ln - overlap) with
        | some rest => some (window.take ln :: rest)
        | none => none
      | none =>
        match chunkTextLoop size overlap text fuel (start + size - overlap) with
        | some rest => some (window :: rest)
        | none => none
    else some []

/-- Embeds `CodeChunker.chunk_text` (with fuel for the loop): if
`len(text) <= chunk_size` the whole text is the single chunk, otherwise the
windowing loop runs from `start = 0`. -/
def chunk_text (size overlap fuel : Nat) (text : Str) : Option (List Str) :=
  if text.length ≤ size then some [text] else chunkTextLoop size overlap text fuel 0

/-- An embedding vector (`numpy` row) as a list of rationals; Python floats
enter only through comparisons and sums here, which the rationals model. -/
abbrev Vec := List ℚ

/-- Squared L2 distance, the metric of `faiss.IndexFlatL2`. -/
def sqDist (u v : Vec) : ℚ := ((u.zip v).map fun p => (p.1 - p.2) ^ 2).sum

/-- Embeds the state of `VectorStore`: `index` is `None` before any build
(`self.index = None`), and otherwise holds the vectors added to the
`faiss.IndexFlatL2`; `documents` is the parallel chunk list. -/
structure VectorStore where
  index : Option (List Vec)
  documents : List Doc

/-- Embeds `VectorStore.build_index`: embeds every chunk (the embedding
model is the external `embed` parameter), adds all vectors to a fresh
index, and stores the chunks as the parallel document list. -/
def build_index (embed : Doc → Vec) (chunks : List Doc) : VectorStore :=
  ⟨some (chunks.map embed), chunks⟩

/-- Models `faiss.IndexFlatL2.search` (external library, modelled by its
contract: exact brute-force L2 search): all stored vectors ranked by
ascending squared-L2 distance to the query, ties by insertion position, and
the first `k` returned as `(position, distance)` pairs. -/
def flatL2Search (vecs : List Vec) (q : Vec) (k : Nat) : List (Nat × ℚ) :=
  (List.insertionSort (fun a b => a.2 ≤ b.2)
    ((vecs.map fun v => sqDist q v).enum)).take k

/-- Embeds `VectorStore.search` at the vector level: `embedQ` is the
external query-embedding step (sentence-transformers or the TF-IDF
fallback).  An unbuilt index (`none`) or an index with zero vectors returns
the empty list; otherwise `k` is clamped to `ntotal` and each returned
position with `idx < len(self.documents)` is paired with its document. -/
def vsSearch (embedQ : Str → Vec) (vs : VectorStore) (query : Str) (k : Nat) :
    List (Doc × ℚ) :=
  match vs.index with
  | none => []
  | some vecs =>
    if vecs.length = 0 then []
    else
      let qv := embedQ query
      let kk := min k vecs.length
      (flatL2Search vecs qv kk).filterMap fun p =>
        match vs.documents.get? p.1 with
        | some d => some (d, p.2)
        | none => none

/-- Default value used with `List.getD` for heap reads; with in-range
addresses (the only runs the theorems consider) it is never produced. -/
def defaultDoc : Doc := ⟨[], []⟩

/-- Heap-level embedding of the `select_chunks_within_limit` loop, used to
state frame properties about mutation.  The heap is the store of chunk
dictionaries; candidates carry heap addresses instead of values;
`doc.copy()` followed by the `truncated_doc['content'] = ...` assignment
becomes allocation of one fresh dictionary at the end of the heap.  Every
dictionary operation of the source maps to a heap operation here; the
value-level `selectLoop` is the same code with dictionaries inlined. -/
def selectLoopH (avail : Int) (heap : List Doc) :
    List (Nat × ℚ) → List Nat → Nat → List Doc × List Nat
  | [], sel, _ => (heap, sel)
  | (addr, _) :: rest, sel, cur =>
    let doc := heap.getD addr defaultDoc
    let ctok := chunkCost (sel.length + 1) doc
    if (cur : Int) + ctok ≤ avail then
      selectLoopH avail heap rest (sel ++ [addr]) (cur + ctok)
    else
      if sel.length = 0 ∧ 200 < avail then
        let htok := count_tokens (truncHeader doc.filepath)
        let maxct : Int := avail - htok
        if 50 < maxct then
          let maxchars : Int := maxct * 3
          let tcontent :=
            if maxchars < (doc.content.length : Int) then
              doc.content.take maxchars.toNat ++ ellipsis
            else doc.content
          (heap ++ [{ doc with content := tcontent }], sel ++ [heap.length])
        else (heap, sel)
      else (heap, sel)

/-- Heap-level embedding of `RAGEngine.select_chunks_within_limit`; returns
the final heap together with the addresses of the accepted dictionaries. -/
def select_chunks_within_limitH (heap : List Doc)
    (retrieved : List (Nat × ℚ)) (query : Str) : List Doc × List Nat :=
  selectLoopH (availableTokens query) heap
    (List.insertionSort (fun a b => a.2 ≤ b.2) retrieved) [] 0

/-- Total rendered token cost of an accepted chunk sequence whose first
chunk sits at (1-based) prompt position `i`; `totalCostFrom 1 chunks` is
the cost the spec's invariant sums (`Σ cost(accepted)`), measured exactly
as `create_prompt` renders the chunks. -/
def totalCostFrom : Nat → List Doc → Nat
  | _, [] => 0
  | i, d :: ds => chunkCost i d + totalCostFrom (i + 1) ds

/-- Concrete filepath `a.py` (4 characters) used by the example inputs. -/
def fpA : Str := strOf "a.py"

/-- Concrete filepath `b.py`. -/
def fpB : Str := strOf "b.py"

/-- Concrete filepath `c.py`. -/
def fpC : Str := strOf "c.py"

/-- Concrete filepath `d.py`. -/
def fpD : Str := strOf "d.py"

/-- Concrete filepath `e.py`. -/
def fpE : Str := strOf "e.py"

/-- A 15965-character chunk body; its rendered form costs exactly
`(31 + 4 + 15965) / 4 = 4000` tokens, so with the empty query
(`available_tokens = 9674`) exactly two such chunks fit. -/
def bodyEq : Str := List.replicate 15965 'x'

/-- Candidate with distance 0.1 in the five-candidate example. -/
def exDocA : Doc := ⟨bodyEq, fpA⟩

/-- Candidate with distance 0.2 in the five-candidate example. -/
def exDocB : Doc := ⟨bodyEq, fpB⟩

/-- Candidate with distance 0.3 in the five-candidate example. -/
def exDocC : Doc := ⟨bodyEq, fpC⟩

/-- Candidate with distance 0.4 in the five-candidate example. -/
def exDocD : Doc := ⟨bodyEq, fpD⟩

/-- Candidate with distance 0.5 in the five-candidate example. -/
def exDocE : Doc := ⟨bodyEq, fpE⟩

/-- The spec's five equal-cost candidates with distances
`[0.1, 0.2, 0.3, 0.4, 0.5]`, supplied out of order to exercise the
budgeter's own sort. -/
def fiveCands : List (Doc × ℚ) :=
  [(exDocC, 3 / 10), (exDocA, 1 / 10), (exDocE, 5 / 10), (exDocB, 2 / 10),
    (exDocD, 4 / 10)]

/-- A candidate whose rendered cost (10008 tokens) exceeds the whole
budget, forcing the truncation branch. -/
def bigDoc : Doc := ⟨List.replicate 40000 'x', fpA⟩

/-- A 40000-character query; the base scaffold containing it already costs
10126 tokens, more than the whole 10000-token budget. -/
def hugeQuery : Str := List.replicate 40000 'a'

/-- A 7000-character newline-free text, input of the chunking example. -/
def text7000 : Str := List.replicate 7000 'a'

/-- A 200-character newline-free text; with `chunk_size = chunk_overlap`
the chunking loop never advances on it. -/
def loopText : Str := List.replicate 200 'a'

/-- First of two retrieved chunks sharing the source path `a.py`. -/
def smallDocA : Doc := ⟨List.replicate 100 'x', fpA⟩

/-- Second of two retrieved chunks sharing the source path `a.py`. -/
def smallDocB : Doc := ⟨List.replicate 90 'y', fpA⟩

/-- Two retrieved chunks from the same file, both cheap enough to accept. -/
def twoSamePath : List (Doc × ℚ) := [(smallDocA, 1 / 10), (smallDocB, 2 / 10)]

/-- A generative call that always succeeds with an empty completion. -/
def llmOk : Str → Except Str Str := fun _ => Except.ok []

/-! Length bookkeeping for the rendered prompt pieces. -/

lemma length_hdrA : (strOf "\n--- Code Snippet ").length = 18 := rfl

lemma length_hdrB : (strOf " from ").length = 6 := rfl

lemma length_hdrC : (strOf " ---\n").length = 5 := rfl

lemma length_nl : (strOf "\n").length = 1 := rfl

lemma length_thdrA : (strOf "\n--- Code Snippet 1 from ").length = 25 := rfl

lemma length_thdrC : (strOf " ---\n\n").length = 6 := rfl

lemma length_ellipsis : ellipsis.length = 3 := rfl

lemma length_digits_one : (Nat.toDigits 10 1).length = 1 := rfl

set_option maxRecDepth 4000 in
lemma length_bpPre : bpPre.length = 141 := rfl

set_option maxRecDepth 4000 in
lemma length_bpPost : bpPost.length = 365 := rfl

lemma length_chunkRender (n : Nat) (fp c : Str) :
    (chunkRender n fp c).length =
      30 + (Nat.toDigits 10 n).length + fp.length + c.length := by
  simp only [chunkRender, List.length_append, length_hdrA, length_hdrB,
    length_hdrC, length_nl]
  omega

lemma length_truncHeader (fp : Str) : (truncHeader fp).length = 31 + fp.length := by
  simp only [truncHeader, List.length_append, length_thdrA, length_thdrC]
  omega

lemma chunkCost_one (d : Doc) :
    chunkCost 1 d = (31 + d.filepath.length + d.content.length) / 4 := by
  simp only [chunkCost, count_tokens, length_chunkRender, length_digits_one]

/-- Arithmetic core of the truncation branch: whichever of the two
truncation cases fires, the rendered cost of the fallback chunk fits the
remaining budget. -/
lemma truncCost_le (avail : Int) (doc : Doc)
    (h50 : 50 < avail - (count_tokens (truncHeader doc.filepath) : Int)) :
    (chunkCost 1 { doc with content :=
        if (avail - (count_tokens (truncHeader doc.filepath) : Int)) * 3 <
            (doc.content.length : Int) then
          (doc.content.take ((avail - (count_tokens (truncHeader doc.filepath) : Int)) * 3).toNat) ++ ellipsis
        else doc.content } : Int) ≤ avail := by
  have hH : count_tokens (truncHeader doc.filepath) =
      (31 + doc.filepath.length) / 4 := by
    simp [count_tokens, length_truncHeader]
  rw [hH] at h50 ⊢
  split
  · rename_i hlong
    rw [chunkCost_one]
    dsimp only
    simp only [List.length_append, List.length_take, length_ellipsis]
    omega
  · rename_i hshort
    rw [chunkCost_one]
    dsimp only
    omega

/-- Loop invariant of `selectLoop`: whatever gets appended to
`selected_chunks` keeps `current_tokens` plus the cost of the appended
suffix within `available_tokens`. -/
lemma selectLoop_le (avail : Int) (l : List (Doc × ℚ)) :
    ∀ (sel : List Doc) (cur : Nat), (cur : Int) ≤ avail → (sel = [] → cur = 0) →
      ∃ extra, selectLoop avail l sel cur = sel ++ extra ∧
        (cur : Int) + (totalCostFrom (sel.length + 1) extra : Int) ≤ avail := by
  induction l with
  | nil =>
    intro sel cur hc _
    exact ⟨[], by simp [selectLoop], by simpa [totalCostFrom] using hc⟩
  | cons hd rest ih =>
    obtain ⟨doc, s⟩ := hd
    intro sel cur hc h0
    by_cases hfit : (cur : Int) + (chunkCost (sel.length + 1) doc : Int) ≤ avail
    · obtain ⟨extra, he, hcost⟩ :=
        ih (sel ++ [doc]) (cur + chunkCost (sel.length + 1) doc)
          (by push_cast; exact hfit) (by simp)
      refine ⟨doc :: extra, ?_, ?_⟩
      · simp only [selectLoop]
        rw [if_pos hfit, he]
        simp
      · simp only [List.length_append, List.length_singleton] at hcost
        simp only [totalCostFrom]
        push_cast at hcost ⊢
        omega
    · by_cases hg : sel.length = 0 ∧ 200 < avail
      · have hsel : sel = [] := List.eq_nil_of_length_eq_zero hg.1
        have hcur : cur = 0 := h0 hsel
        subst hsel hcur
        by_cases h50 :
            50 < avail - (count_tokens (truncHeader doc.filepath) : Int)
        · refine ⟨[{ doc with content :=
              if (avail - (count_tokens (truncHeader doc.filepath) : Int)) * 3 <
                  (doc.content.length : Int) then
                (doc.content.take ((avail - (count_tokens (truncHeader doc.filepath) : Int)) * 3).toNat) ++ ellipsis
              else doc.content }], ?_, ?_⟩
          · simp only [selectLoop]
            rw [if_neg hfit, if_pos hg, if_pos h50]
          · simp only [totalCostFrom, List.length_nil, Nat.zero_add]
            have := truncCost_le avail doc h50
            push_cast
            omega
        · refine ⟨[], ?_, by simpa [totalCostFrom] using hc⟩
          simp only [selectLoop]
          rw [if_neg hfit, if_pos hg, if_neg h50]
          simp
      · refine ⟨[], ?_, by simpa [totalCostFrom] using hc⟩
        simp only [selectLoop]
        rw [if_neg hfit, if_neg hg]
        simp

/-- C1, corrected form.  Whenever the base scaffold plus the safety margin
does not already exceed the budget, the budgeter's output satisfies the
spec invariant `base + margin + Σ cost(accepted) ≤ B`. -/
theorem budget_invariant_of_base_fits (retrieved : List (Doc × ℚ)) (query : Str)
    (h : count_tokens (basePrompt query) + 200 ≤ max_context_tokens) :
    count_tokens (basePrompt query) + 200 +
      totalCostFrom 1 (select_chunks_within_limit retrieved query) ≤
      max_context_tokens := by
  have h0 : (0 : Int) ≤ availableTokens query := by
    simp only [availableTokens]
    omega
  obtain ⟨extra, he, hcost⟩ :=
    selectLoop_le (availableTokens query) (sortByDistance retrieved) [] 0
      h0 (fun _ => rfl)
  simp only [select_chunks_within_limit]
  rw [he]
  simp only [List.nil_append, List.length_nil, Nat.zero_add] at hcost ⊢
  simp only [availableTokens] at hcost
  omega

set_option maxRecDepth 4000 in
/-- Witness for `budget_invariant_of_base_fits` at the empty candidate list
and the empty query. -/
theorem budget_invariant_of_base_fits_witness :
    count_tokens (basePrompt []) + 200 ≤ max_context_tokens ∧
      count_tokens (basePrompt []) + 200 +
        totalCostFrom 1 (select_chunks_within_limit [] []) ≤
        max_context_tokens :=
  ⟨by decide, budget_invariant_of_base_fits [] [] (by decide)⟩

/-- C1 as stated is false: with a 40000-character query the base scaffold
alone costs 10126 tokens, so even the empty selection violates
`base + margin + Σ cost(accepted) ≤ B`. -/
theorem budget_invariant_fails_on_oversized_query :
    ¬ (count_tokens (basePrompt hugeQuery) + 200 +
        totalCostFrom 1 (select_chunks_within_limit [] hugeQuery) ≤
        max_context_tokens) := by
  have h1 : select_chunks_within_limit [] hugeQuery = [] := rfl
  have hlen : hugeQuery.length = 40000 := List.length_replicate 40000 'a'
  have h2 : count_tokens (basePrompt hugeQuery) = 10126 := by
    rw [count_tokens, basePrompt, List.length_append, List.length_append,
      hlen, length_bpPre, length_bpPost]
  rw [h1, h2]
  simp [totalCostFrom, max_context_tokens]

/-- One accepted step of the selection loop. -/
lemma selectLoop_accept (avail : Int) (doc : Doc) (s : ℚ)
    (rest : List (Doc × ℚ)) (sel : List Doc) (cur c : Nat)
    (hc : chunkCost (sel.length + 1) doc = c)
    (h : (cur : Int) + c ≤ avail) :
    selectLoop avail ((doc, s) :: rest) sel cur =
      selectLoop avail rest (sel ++ [doc]) (cur + c) := by
  subst hc
  simp only [selectLoop]
  rw [if_pos h]

/-- The break of the selection loop when at least one chunk was already
accepted: the loop returns `selected_chunks` unchanged and never looks at
later candidates. -/
lemma selectLoop_stop (avail : Int) (doc : Doc) (s : ℚ)
    (rest : List (Doc × ℚ)) (sel : List Doc) (cur c : Nat)
    (hc : chunkCost (sel.length + 1) doc = c)
    (h : ¬ (cur : Int) + c ≤ avail) (hsel : sel.length ≠ 0) :
    selectLoop avail ((doc, s) :: rest) sel cur = sel := by
  subst hc
  simp only [selectLoop]
  rw [if_neg h, if_neg]
  intro hg
  exact hsel hg.1

/-- Every run of the selection loop extends `selected_chunks` either by a
prefix of the remaining sorted candidates (projected to their documents)
that ends exactly where the budget first runs out — the prefix is the whole
list, or the very next candidate's rendered cost does not fit on top of the
accumulated cost — or, only from the empty selection, by a single truncated
copy of the first remaining candidate. -/
lemma selectLoop_shape (avail : Int) (l : List (Doc × ℚ)) :
    ∀ sel cur,
      (∃ n, selectLoop avail l sel cur = sel ++ (l.take n).map Prod.fst ∧
        (l.length ≤ n ∨ ∃ d s, l.get? n = some (d, s) ∧
          ¬ ((cur : Int) +
              (totalCostFrom (sel.length + 1) ((l.take n).map Prod.fst) : Int) +
              (chunkCost (sel.length + n + 1) d : Int) ≤ avail))) ∨
      (sel = [] ∧ ∃ d s rest tc, l = (d, s) :: rest ∧
        selectLoop avail l sel cur = [{ d with content := tc }]) := by
  induction l with
  | nil =>
    intro sel cur
    exact Or.inl ⟨0, by simp [selectLoop], Or.inl (by simp)⟩
  | cons hd rest ih =>
    obtain ⟨doc, s⟩ := hd
    intro sel cur
    by_cases hfit : (cur : Int) + (chunkCost (sel.length + 1) doc : Int) ≤ avail
    · rcases ih (sel ++ [doc]) (cur + chunkCost (sel.length + 1) doc) with
        ⟨n, hn, hstop⟩ | ⟨habs, _⟩
      · refine Or.inl ⟨n + 1, ?_, ?_⟩
        · simp only [selectLoop]
          rw [if_pos hfit, hn]
          simp
        · simp only [List.length_append, List.length_cons, List.length_nil,
            Nat.zero_add] at hstop
          rcases hstop with hlen | ⟨d', s', hget, hcond⟩
          · exact Or.inl (by simp; omega)
          · refine Or.inr ⟨d', s', by simpa using hget, ?_⟩
            rw [show sel.length + (n + 1) + 1 = sel.length + 1 + n + 1 from
              by omega]
            simp only [List.take_succ_cons, List.map_cons, totalCostFrom]
            intro hcontra
            apply hcond
            push_cast at hcontra ⊢
            omega
      · simp at habs
    · by_cases hg : sel.length = 0 ∧ 200 < avail
      · have hsel : sel = [] := List.eq_nil_of_length_eq_zero hg.1
        by_cases h50 :
            50 < avail - (count_tokens (truncHeader doc.filepath) : Int)
        · refine Or.inr ⟨hsel, doc, s, rest,
            (if (avail - (count_tokens (truncHeader doc.filepath) : Int)) * 3 <
                (doc.content.length : Int) then
              (doc.content.take ((avail - (count_tokens (truncHeader doc.filepath) : Int)) * 3).toNat) ++ ellipsis
            else doc.content), rfl, ?_⟩
          subst hsel
          simp only [selectLoop]
          rw [if_neg hfit, if_pos hg, if_pos h50]
          simp
        · refine Or.inl ⟨0, ?_, Or.inr ⟨doc, s, rfl, ?_⟩⟩
          · simp only [selectLoop]
            rw [if_neg hfit, if_pos hg, if_neg h50]
            simp
          · simp only [List.take_zero, List.map_nil, totalCostFrom,
              Nat.add_zero]
            intro hcontra
            apply hfit
            push_cast at hcontra ⊢
            omega
      · refine Or.inl ⟨0, ?_, Or.inr ⟨doc, s, rfl, ?_⟩⟩
        · simp only [selectLoop]
          rw [if_neg hfit, if_neg hg]
          simp
        · simp only [List.take_zero, List.map_nil, totalCostFrom,
            Nat.add_zero]
          intro hcontra
          apply hfit
          push_cast at hcontra ⊢
          omega

lemma length_digits_two : (Nat.toDigits 10 2).length = 1 := rfl

lemma length_digits_three : (Nat.toDigits 10 3).length = 1 := rfl

/-- The rendered cost of a chunk whose prompt position has a single decimal
digit. -/
lemma chunkCost_small (n : Nat) (d : Doc)
    (h : (Nat.toDigits 10 n).length = 1) :
    chunkCost n d = (31 + d.filepath.length + d.content.length) / 4 := by
  simp only [chunkCost, count_tokens, length_chunkRender, h]

lemma count_tokens_basePrompt_nil : count_tokens (basePrompt []) = 126 := by
  rw [count_tokens, basePrompt, List.length_append, List.length_append,
    List.length_nil, length_bpPre, length_bpPost]

lemma availableTokens_nil : availableTokens [] = 9674 := by
  rw [availableTokens, count_tokens_basePrompt_nil]
  norm_num [max_context_tokens]

lemma bodyEq_length : bodyEq.length = 15965 := List.length_replicate 15965 'x'

lemma chunkCost_exDocA : chunkCost 1 exDocA = 4000 := by
  rw [chunkCost_small 1 exDocA length_digits_one]
  have h1 : exDocA.filepath.length = 4 := rfl
  have h2 : exDocA.content.length = 15965 := by
    show bodyEq.length = 15965
    exact bodyEq_length
  rw [h1, h2]

lemma chunkCost_exDocB : chunkCost 2 exDocB = 4000 := by
  rw [chunkCost_small 2 exDocB length_digits_two]
  have h1 : exDocB.filepath.length = 4 := rfl
  have h2 : exDocB.content.length = 15965 := by
    show bodyEq.length = 15965
    exact bodyEq_length
  rw [h1, h2]

lemma chunkCost_exDocC : chunkCost 3 exDocC = 4000 := by
  rw [chunkCost_small 3 exDocC length_digits_three]
  have h1 : exDocC.filepath.length = 4 := rfl
  have h2 : exDocC.content.length = 15965 := by
    show bodyEq.length = 15965
    exact bodyEq_length
  rw [h1, h2]

/-- Evaluation of the five-candidate example: with the empty query the
remaining budget is 9674 tokens, each candidate costs 4000 rendered tokens,
so the loop accepts the two lowest-distance candidates and stops at the
third. -/
lemma select_fiveCands_eval :
    select_chunks_within_limit fiveCands [] = [exDocA, exDocB] := by
  have hsort : sortByDistance fiveCands =
      [(exDocA, 1 / 10), (exDocB, 2 / 10), (exDocC, 3 / 10), (exDocD, 4 / 10),
        (exDocE, 5 / 10)] := by
    norm_num [sortByDistance, fiveCands, List.insertionSort, List.orderedInsert]
  rw [select_chunks_within_limit, availableTokens_nil, hsort]
  have hA : chunkCost (([] : List Doc).length + 1) exDocA = 4000 :=
    chunkCost_exDocA
  have hB : chunkCost ((([] : List Doc) ++ [exDocA]).length + 1) exDocB =
      4000 := chunkCost_exDocB
  have hC : chunkCost (((([] : List Doc) ++ [exDocA]) ++ [exDocB]).length + 1)
      exDocC = 4000 := chunkCost_exDocC
  rw [selectLoop_accept 9674 exDocA (1 / 10) _ [] 0 4000 hA (by norm_num)]
  rw [selectLoop_accept 9674 exDocB (2 / 10) _ _ _ 4000 hB (by norm_num)]
  rw [selectLoop_stop 9674 exDocC (3 / 10) _ _ _ 4000 hC (by norm_num)
    (by simp)]
  simp

/-- C2, confirmed.  First conjunct: for every input, the selection is
either the document projection of a prefix of the distance-sorted candidate
list that stops exactly at the first candidate whose rendered cost does not
fit on top of the accumulated cost (or exhausts all candidates) — so no
later candidate is ever accepted — or, from an empty selection, one
truncated copy of the head of the sorted list.  Second conjunct: the spec's
example — five equal-cost candidates at distances 0.1‥0.5 and a budget with
room for exactly two chunk costs yield precisely the two lowest-distance
candidates. -/
theorem greedy_stop_selection :
    (∀ (retrieved : List (Doc × ℚ)) (query : Str),
      (∃ n, select_chunks_within_limit retrieved query =
          ((sortByDistance retrieved).take n).map Prod.fst ∧
        ((sortByDistance retrieved).length ≤ n ∨
          ∃ d s, (sortByDistance retrieved).get? n = some (d, s) ∧
            ¬ ((totalCostFrom 1
                  (((sortByDistance retrieved).take n).map Prod.fst) : Int) +
                (chunkCost (n + 1) d : Int) ≤ availableTokens query))) ∨
      (∃ d s rest tc, sortByDistance retrieved = (d, s) :: rest ∧
        select_chunks_within_limit retrieved query = [{ d with content := tc }]))
    ∧ select_chunks_within_limit fiveCands [] = [exDocA, exDocB] := by
  constructor
  · intro retrieved query
    rcases selectLoop_shape (availableTokens query) (sortByDistance retrieved)
        [] 0 with ⟨n, hn, hstop⟩ | ⟨_, d, s, rest, tc, hcons, hres⟩
    · refine Or.inl ⟨n, by rw [select_chunks_within_limit, hn]; simp, ?_⟩
      rcases hstop with hlen | ⟨d, s, hget, hcond⟩
      · exact Or.inl hlen
      · refine Or.inr ⟨d, s, hget, ?_⟩
        simp only [List.length_nil, Nat.zero_add] at hcond
        intro hcontra
        apply hcond
        push_cast at hcontra ⊢
        omega
    · exact Or.inr ⟨d, s, rest, tc, hcons,
        by rw [select_chunks_within_limit, hres]⟩
  · exact select_fiveCands_eval

lemma bigDoc_content_length : bigDoc.content.length = 40000 :=
  List.length_replicate 40000 'x'

lemma chunkCost_bigDoc : chunkCost 1 bigDoc = 10008 := by
  rw [chunkCost_small 1 bigDoc length_digits_one]
  have h1 : bigDoc.filepath.length = 4 := rfl
  rw [h1, bigDoc_content_length]

lemma truncHeader_bigDoc : count_tokens (truncHeader bigDoc.filepath) = 8 := by
  rw [count_tokens, length_truncHeader]
  have h1 : bigDoc.filepath.length = 4 := rfl
  rw [h1]

/-- C3, confirmed.  If the first candidate of the distance-sorted list (a
candidate of minimal distance, first conjunct) does not fit, the remaining
budget exceeds the 200-token guard and, after reserving the header, the
50-token minimum-useful-content threshold, then the budgeter returns
exactly one chunk: the highest-relevance candidate truncated to
`3 · (remaining − header)` characters plus the `...` marker, and its
rendered cost fits the remaining budget. -/
theorem truncation_fallback_single_chunk (retrieved : List (Doc × ℚ))
    (query : Str) (d : Doc) (s : ℚ) (rest : List (Doc × ℚ))
    (hsort : sortByDistance retrieved = (d, s) :: rest)
    (hnofit : availableTokens query < (chunkCost 1 d : Int))
    (h200 : 200 < availableTokens query)
    (h50 : 50 < availableTokens query -
      (count_tokens (truncHeader d.filepath) : Int)) :
    (∀ p ∈ retrieved, s ≤ p.2) ∧
    select_chunks_within_limit retrieved query =
      [{ d with content := (d.content.take (((availableTokens query - (count_tokens (truncHeader d.filepath) : Int)) * 3).toNat)) ++ ellipsis }] ∧
    (chunkCost 1 { d with content := (d.content.take (((availableTokens query - (count_tokens (truncHeader d.filepath) : Int)) * 3).toNat)) ++ ellipsis } : Int) ≤
      availableTokens query := by
  have hH : count_tokens (truncHeader d.filepath) =
      (31 + d.filepath.length) / 4 := by
    simp [count_tokens, length_truncHeader]
  have hlong : (availableTokens query -
      (count_tokens (truncHeader d.filepath) : Int)) * 3 <
      (d.content.length : Int) := by
    rw [chunkCost_one] at hnofit
    rw [hH] at h50 ⊢
    omega
  refine ⟨?_, ?_, ?_⟩
  · haveI : IsTotal (Doc × ℚ) (fun a b => a.2 ≤ b.2) :=
      ⟨fun a b => le_total a.2 b.2⟩
    haveI : IsTrans (Doc × ℚ) (fun a b => a.2 ≤ b.2) :=
      ⟨fun _ _ _ h1 h2 => le_trans h1 h2⟩
    have hsorted :=
      List.sorted_insertionSort (fun a b : Doc × ℚ => a.2 ≤ b.2) retrieved
    rw [show List.insertionSort (fun a b : Doc × ℚ => a.2 ≤ b.2) retrieved =
        sortByDistance retrieved from rfl, hsort] at hsorted
    obtain ⟨hhead, _⟩ := List.sorted_cons.mp hsorted
    intro p hp
    have hp2 : p ∈ sortByDistance retrieved := by
      rw [show sortByDistance retrieved =
          List.insertionSort (fun a b : Doc × ℚ => a.2 ≤ b.2) retrieved
        from rfl]
      exact (List.mem_insertionSort _).mpr hp
    rw [hsort] at hp2
    rcases List.mem_cons.mp hp2 with hq | hq
    · rw [hq]
    · exact hhead p hq
  · rw [select_chunks_within_limit, hsort]
    simp only [selectLoop, List.length_nil, Nat.zero_add]
    rw [if_neg (by push_cast; omega), if_pos ⟨trivial, h200⟩, if_pos h50,
      if_pos hlong]
    simp
  · have := truncCost_le (availableTokens query) d h50
    rw [if_pos hlong] at this
    exact this

/-- Witness for `truncation_fallback_single_chunk`: one 40000-character
candidate (rendered cost 10008 > 9674 remaining) with the empty query. -/
theorem truncation_fallback_single_chunk_witness :
    select_chunks_within_limit [(bigDoc, 1 / 2)] [] =
      [{ bigDoc with content := (bigDoc.content.take (((availableTokens [] - (count_tokens (truncHeader bigDoc.filepath) : Int)) * 3).toNat)) ++ ellipsis }] :=
  (truncation_fallback_single_chunk [(bigDoc, 1 / 2)] [] bigDoc (1 / 2) []
    rfl
    (by rw [chunkCost_bigDoc, availableTokens_nil]; norm_num)
    (by rw [availableTokens_nil]; norm_num)
    (by rw [availableTokens_nil, truncHeader_bigDoc]; norm_num)).2.1

set_option maxRecDepth 4000 in
lemma length_cpPre : cpPre.length = 125 := rfl

lemma length_cpMid : cpMid.length = 17 := rfl

lemma count_renderPrompt_nil : count_tokens (renderPrompt [] []) = 126 := by
  rw [count_tokens, renderPrompt]
  rw [show contextText 1 [] = [] from rfl, List.append_nil, List.append_nil]
  rw [List.length_append, List.length_append]
  rw [length_cpPre, length_cpMid, length_bpPost]

lemma count_renderPrompt_bigDoc :
    count_tokens (renderPrompt [] [bigDoc]) = 10135 := by
  have h1 : bigDoc.filepath.length = 4 := rfl
  rw [count_tokens, renderPrompt]
  rw [show contextText 1 [bigDoc] = chunkRender 1 bigDoc.filepath bigDoc.content
    from by simp only [contextText, List.append_nil]]
  rw [List.append_nil]
  rw [List.length_append, List.length_append, List.length_append]
  rw [length_cpPre, length_cpMid, length_bpPost, length_chunkRender,
    length_digits_one, h1, bigDoc_content_length]

/-- When `create_prompt` raises (the sizing `ValueError`), the catch-all
handler of `generate_answer` returns the textual payload. -/
lemma generate_answer_error (llm : Str → Except Str Str) (q : Str)
    (c : List Doc) (e : Str) (h : create_prompt q c = Except.error e) :
    generate_answer llm q c = errPayload e := by
  unfold generate_answer
  rw [h]

/-- When `create_prompt` succeeds, `generate_answer` is determined by the
external generative call on the assembled prompt. -/
lemma generate_answer_ok (llm : Str → Except Str Str) (q : Str)
    (c : List Doc) (p : Str) (h : create_prompt q c = Except.ok p) :
    generate_answer llm q c =
      (match llm p with
        | Except.ok ans => ans
        | Except.error e => errPayload e) := by
  unfold generate_answer
  rw [h]

lemma create_prompt_nil_ok : create_prompt [] [] = Except.ok (renderPrompt [] []) := by
  simp only [create_prompt]
  rw [if_neg]
  rw [count_renderPrompt_nil]
  norm_num [max_context_tokens]

lemma create_prompt_bigDoc_error : create_prompt [] [bigDoc] =
    Except.error (sizingMsg (count_tokens (renderPrompt [] [bigDoc]))
      max_context_tokens) := by
  simp only [create_prompt]
  rw [if_pos]
  rw [count_renderPrompt_bigDoc]
  norm_num [max_context_tokens]

/-- C4 as stated is false: an external generative-call failure and the
defensive recount's sizing fault produce the identical textual payload,
because `generate_answer`'s catch-all `except Exception` also swallows the
`ValueError` raised by `create_prompt`.  The left run has a fitting prompt
and a failing generative call; the right run has an oversized prompt
(10135 > 10000 tokens) and a generative call that would succeed; the
caller receives exactly the same answer string. -/
theorem sizing_fault_payload_collision :
    generate_answer
      (fun _ => Except.error
        (sizingMsg (count_tokens (renderPrompt [] [bigDoc]))
          max_context_tokens)) [] [] =
    generate_answer llmOk [] [bigDoc] := by
  rw [generate_answer_ok _ _ _ _ create_prompt_nil_ok,
    generate_answer_error _ _ _ _ create_prompt_bigDoc_error]

/-- C4, corrected.  The distinct sizing fault exists only at the
`create_prompt` level: when the recounted prompt exceeds the budget,
`create_prompt` raises the sizing `ValueError`, but `generate_answer`
converts it — for every generative backend — into the same
`Error generating answer: ...` textual payload used for generative-call
failures, so callers of `generate_answer` cannot distinguish the two. -/
theorem create_prompt_sizing_fault (query : Str) (chunks : List Doc)
    (h : max_context_tokens < count_tokens (renderPrompt query chunks)) :
    create_prompt query chunks =
      Except.error (sizingMsg (count_tokens (renderPrompt query chunks))
        max_context_tokens) ∧
    ∀ llm, generate_answer llm query chunks =
      errPayload (sizingMsg (count_tokens (renderPrompt query chunks))
        max_context_tokens) := by
  have he : create_prompt query chunks =
      Except.error (sizingMsg (count_tokens (renderPrompt query chunks))
        max_context_tokens) := by
    simp only [create_prompt]
    rw [if_pos h]
  exact ⟨he, fun llm => generate_answer_error llm query chunks _ he⟩

/-- Witness for `create_prompt_sizing_fault`: one 40000-character chunk
makes the assembled prompt recount to 10135 tokens, above the 10000
budget. -/
theorem create_prompt_sizing_fault_witness :
    max_context_tokens < count_tokens (renderPrompt [] [bigDoc]) ∧
    create_prompt [] [bigDoc] =
      Except.error (sizingMsg (count_tokens (renderPrompt [] [bigDoc]))
        max_context_tokens) :=
  ⟨by rw [count_renderPrompt_bigDoc]; norm_num [max_context_tokens],
    (create_prompt_sizing_fault [] [bigDoc]
      (by rw [count_renderPrompt_bigDoc]; norm_num [max_context_tokens])).1⟩

lemma loopText_length : loopText.length = 200 := List.length_replicate 200 'a'

lemma text7000_length : text7000.length = 7000 := List.length_replicate 7000 'a'

/-- Python's `rfind` on a text without the sought character reports
absence. -/
lemma rfindChar_replicate (n : Nat) (c a : Char) (h : a ≠ c) :
    rfindChar c (List.replicate n a) = none := by
  induction n with
  | zero => rfl
  | succ m ih => rw [List.replicate_succ, rfindChar, ih, if_neg h]

/-- With `chunk_size = chunk_overlap = 100` on a 200-character newline-free
text, one loop iteration leaves `start` at `100 - 100 = 0`, so the loop
never terminates: no amount of fuel produces a result. -/
lemma chunkLoop_stuck : ∀ fuel, chunkTextLoop 100 100 loopText fuel 0 = none := by
  intro fuel
  induction fuel with
  | zero => rfl
  | succ f ih =>
    have hlen : loopText.length = 200 := List.length_replicate 200 'a'
    have hwin : (loopText.drop 0).take 100 = List.replicate 100 'a' := by
      rw [List.drop_zero, show loopText = List.replicate 200 'a' from rfl,
        List.take_replicate]
      norm_num
    rw [chunkTextLoop]
    rw [if_pos (by rw [hlen]; norm_num)]
    rw [hwin, hlen]
    dsimp only
    rw [if_pos (by norm_num)]
    rw [rfindChar_replicate 100 '\n' 'a' (by decide)]
    dsimp only
    rw [show (0 : Nat) + 100 - 100 = 0 from rfl, ih]

/-- C5 is about the code's intent, and the code misses it:
`CodeChunker.__init__` stores `chunk_size = chunk_overlap = 100` without
any rejection (first conjunct), and on a 200-character text `chunk_text`
then loops forever — the loop produces no result under any fuel (second
conjunct), the infinite-loop risk the specification says the constructor
must rule out. -/
theorem chunker_accepts_invalid_overlap_and_hangs :
    CodeChunker.init 100 100 = ⟨100, 100⟩ ∧
    ∀ fuel, chunk_text 100 100 fuel loopText = none := by
  refine ⟨rfl, fun fuel => ?_⟩
  rw [chunk_text]
  rw [if_neg (by rw [loopText_length]; norm_num)]
  exact chunkLoop_stuck fuel

/-- Innermost call of the 7000-character run: `start = 8400` is past the
end of the text, so the loop exits. -/
lemma chunk7000_step4 (f : Nat) :
    chunkTextLoop 3000 200 text7000 (f + 1) 8400 = some [] := by
  rw [chunkTextLoop]
  rw [if_neg (by rw [text7000_length]; norm_num)]

/-- Third window of the 7000-character run: `[5600, 8600)` clipped to the
1400 remaining characters; `start` advances to `8600 - 200 = 8400`. -/
lemma chunk7000_step3 (f : Nat) :
    chunkTextLoop 3000 200 text7000 (f + 1 + 1) 5600 =
      some [List.replicate 1400 'a'] := by
  have hwin : (text7000.drop 5600).take 3000 = List.replicate 1400 'a' := by
    rw [show text7000 = List.replicate 7000 'a' from rfl,
      List.drop_replicate, List.take_replicate]
    norm_num
  rw [chunkTextLoop]
  rw [if_pos (by rw [text7000_length]; norm_num)]
  rw [hwin, text7000_length]
  dsimp only
  rw [if_neg (by norm_num)]
  rw [show (5600 : Nat) + 3000 - 200 = 8400 from by norm_num,
    chunk7000_step4 f]

/-- Second window of the 7000-character run: the full `[2800, 5800)` slice;
`start` advances to `5800 - 200 = 5600`. -/
lemma chunk7000_step2 (f : Nat) :
    chunkTextLoop 3000 200 text7000 (f + 1 + 1 + 1) 2800 =
      some [List.replicate 3000 'a', List.replicate 1400 'a'] := by
  have hwin : (text7000.drop 2800).take 3000 = List.replicate 3000 'a' := by
    rw [show text7000 = List.replicate 7000 'a' from rfl,
      List.drop_replicate, List.take_replicate]
    norm_num
  rw [chunkTextLoop]
  rw [if_pos (by rw [text7000_length]; norm_num)]
  rw [hwin, text7000_length]
  dsimp only
  rw [if_pos (by norm_num)]
  rw [rfindChar_replicate 3000 '\n' 'a' (by decide)]
  dsimp only
  rw [show (2800 : Nat) + 3000 - 200 = 5600 from by norm_num,
    chunk7000_step3 f]

/-- Full evaluation of `chunk_text(3000, 200)` on the 7000-character
newline-free text, for every sufficient fuel: three chunks, namely the
slices `[0, 3000)`, `[2800, 5800)` and `[5600, 7000)`. -/
lemma chunk7000_eval (f : Nat) :
    chunk_text 3000 200 (f + 1 + 1 + 1 + 1) text7000 =
      some [List.replicate 3000 'a', List.replicate 3000 'a',
        List.replicate 1400 'a'] := by
  have hwin : (text7000.drop 0).take 3000 = List.replicate 3000 'a' := by
    rw [List.drop_zero, show text7000 = List.replicate 7000 'a' from rfl,
      List.take_replicate]
    norm_num
  rw [chunk_text]
  rw [if_neg (by rw [text7000_length]; norm_num)]
  rw [chunkTextLoop]
  rw [if_pos (by rw [text7000_length]; norm_num)]
  rw [hwin, text7000_length]
  dsimp only
  rw [if_pos (by norm_num)]
  rw [rfindChar_replicate 3000 '\n' 'a' (by decide)]
  dsimp only
  rw [show (0 : Nat) + 3000 - 200 = 2800 from by norm_num,
    chunk7000_step2 f]

/-- C6 as stated is false: on a 7000-character newline-free string,
`chunk_text(3000, 200)` yields 3 chunks, not 4 (their offsets are 0, 2800
and 5600, and the last chunk does reach offset 7000, as the rest of the
claim says). -/
theorem chunk7000_not_four_chunks :
    (chunk_text 3000 200 4 text7000).map List.length = some 3 := by
  rw [show (4 : Nat) = 0 + 1 + 1 + 1 + 1 from rfl, chunk7000_eval 0]
  rfl

/-- C6, corrected.  For every sufficient fuel the run yields exactly 3
chunks: the slices starting at offsets 0, 2800 and 5600, the last one
reaching offset 7000 (`text7000.drop 5600` is its final 1400 characters). -/
theorem chunk7000_amended (fuel : Nat) (h : 4 ≤ fuel) :
    chunk_text 3000 200 fuel text7000 =
      some [(text7000.drop 0).take 3000, (text7000.drop 2800).take 3000,
        text7000.drop 5600] := by
  obtain ⟨f, rfl⟩ : ∃ f, fuel = f + 1 + 1 + 1 + 1 := ⟨fuel - 4, by omega⟩
  rw [chunk7000_eval f]
  have h1 : (text7000.drop 0).take 3000 = List.replicate 3000 'a' := by
    rw [List.drop_zero, show text7000 = List.replicate 7000 'a' from rfl,
      List.take_replicate]
    norm_num
  have h2 : (text7000.drop 2800).take 3000 = List.replicate 3000 'a' := by
    rw [show text7000 = List.replicate 7000 'a' from rfl,
      List.drop_replicate, List.take_replicate]
    norm_num
  have h3 : text7000.drop 5600 = List.replicate 1400 'a' := by
    rw [show text7000 = List.replicate 7000 'a' from rfl,
      List.drop_replicate]
  rw [h1, h2, h3]

/-- Witness for `chunk7000_amended` at fuel 4. -/
theorem chunk7000_amended_witness :
    4 ≤ 4 ∧ chunk_text 3000 200 4 text7000 =
      some [(text7000.drop 0).take 3000, (text7000.drop 2800).take 3000,
        text7000.drop 5600] :=
  ⟨by norm_num, chunk7000_amended 4 (by norm_num)⟩

/-- Squared L2 distances are sums of squares, hence non-negative. -/
lemma sqDist_nonneg (u v : Vec) : 0 ≤ sqDist u v := by
  apply List.sum_nonneg
  intro x hx
  obtain ⟨p, _, rfl⟩ := List.mem_map.mp hx
  positivity

/-- The results loop of `VectorStore.search` (`if idx < len(self.documents)`
then pair with `self.documents[idx]`) preserves the distance sequence as a
sublist. -/
lemma filterMap_snd_sublist (docs : List Doc) (l : List (Nat × ℚ)) :
    ((l.filterMap fun p =>
        match docs.get? p.1 with
        | some d => some (d, p.2)
        | none => none).map Prod.snd).Sublist (l.map Prod.snd) := by
  induction l with
  | nil => simp
  | cons hd tl ih =>
    rw [List.filterMap_cons]
    cases hget : docs.get? hd.1 with
    | none =>
      simp only [hget]
      exact ih.trans (List.sublist_cons_self hd.2 (List.map Prod.snd tl))
    | some d =>
      simp only [hget, List.map_cons]
      exact List.Sublist.cons₂ hd.2 ih

/-- C7, confirmed.  After `build_index`, `search` returns at most
`min k ntotal` results, their distances are non-decreasing, and every
result pairs one of the stored chunks with a non-negative distance. -/
theorem search_results_clamped_sorted_nonneg (embed : Doc → Vec)
    (embedQ : Str → Vec) (chunks : List Doc) (query : Str) (k : Nat) :
    (vsSearch embedQ (build_index embed chunks) query k).length ≤
      min k chunks.length ∧
    List.Pairwise (· ≤ ·)
      ((vsSearch embedQ (build_index embed chunks) query k).map Prod.snd) ∧
    ∀ p ∈ vsSearch embedQ (build_index embed chunks) query k,
      p.1 ∈ chunks ∧ 0 ≤ p.2 := by
  haveI : IsTotal (Nat × ℚ) (fun a b => a.2 ≤ b.2) :=
    ⟨fun a b => le_total a.2 b.2⟩
  haveI : IsTrans (Nat × ℚ) (fun a b => a.2 ≤ b.2) :=
    ⟨fun _ _ _ h1 h2 => le_trans h1 h2⟩
  by_cases hz : (chunks.map embed).length = 0
  · have hres : vsSearch embedQ (build_index embed chunks) query k = [] := by
      simp only [vsSearch, build_index]
      rw [if_pos hz]
    rw [hres]
    simp
  · have hres : vsSearch embedQ (build_index embed chunks) query k =
        (flatL2Search (chunks.map embed) (embedQ query)
          (min k (chunks.map embed).length)).filterMap fun p =>
            match chunks.get? p.1 with
            | some d => some (d, p.2)
            | none => none := by
      simp only [vsSearch, build_index]
      rw [if_neg hz]
    have hsorted : List.Pairwise (fun a b : Nat × ℚ => a.2 ≤ b.2)
        (flatL2Search (chunks.map embed) (embedQ query)
          (min k (chunks.map embed).length)) := by
      apply List.Pairwise.sublist (List.take_sublist _ _)
      exact List.sorted_insertionSort (fun a b : Nat × ℚ => a.2 ≤ b.2) _
    refine ⟨?_, ?_, ?_⟩
    · rw [hres]
      calc ((flatL2Search (chunks.map embed) (embedQ query)
              (min k (chunks.map embed).length)).filterMap _).length
          ≤ (flatL2Search (chunks.map embed) (embedQ query)
              (min k (chunks.map embed).length)).length :=
            List.length_filterMap_le _ _
        _ ≤ min k (chunks.map embed).length := by
            rw [flatL2Search, List.length_take]
            exact min_le_left _ _
        _ = min k chunks.length := by rw [List.length_map]
    · rw [hres]
      exact List.Pairwise.sublist (filterMap_snd_sublist chunks _)
        (List.pairwise_map.mpr hsorted)
    · intro p hp
      rw [hres] at hp
      obtain ⟨q, hq, hFq⟩ := List.mem_filterMap.mp hp
      cases hget : chunks.get? q.1 with
      | none => rw [hget] at hFq; exact absurd hFq (by simp)
      | some d =>
        rw [hget] at hFq
        have hpd : p = (d, q.2) := by
          simpa using hFq.symm
        subst hpd
        refine ⟨List.get?_mem hget, ?_⟩
        have hq2 : q ∈ List.insertionSort (fun a b : Nat × ℚ => a.2 ≤ b.2)
            (((chunks.map embed).map (fun v => sqDist (embedQ query) v)).enum) :=
          List.mem_of_mem_take (by simpa [flatL2Search] using hq)
        have hq3 : q ∈ (((chunks.map embed).map
            (fun v => sqDist (embedQ query) v)).enum) :=
          (List.mem_insertionSort _).mp hq2
        obtain ⟨i, dist⟩ := q
        have hq4 := List.mk_mem_enum_iff_getElem?.mp hq3
        have hq5 : dist ∈ (chunks.map embed).map
            (fun v => sqDist (embedQ query) v) := by
          apply List.get?_mem
          rw [List.get?_eq_getElem?]
          exact hq4
        obtain ⟨v, _, rfl⟩ := List.mem_map.mp hq5
        exact sqDist_nonneg _ _

/-- Witness for `search_results_clamped_sorted_nonneg`: a one-chunk index
queried with `k = 1` returns that chunk at distance 0. -/
theorem search_results_witness :
    (vsSearch (fun _ => ([] : Vec))
        (build_index (fun _ => ([] : Vec)) [defaultDoc]) [] 1).length ≤
      min 1 1 ∧
    defaultDoc ∈ [defaultDoc] ∧ (0 : ℚ) ≤ 0 :=
  ⟨(search_results_clamped_sorted_nonneg (fun _ => ([] : Vec))
      (fun _ => ([] : Vec)) [defaultDoc] [] 1).1,
    ((search_results_clamped_sorted_nonneg (fun _ => ([] : Vec))
      (fun _ => ([] : Vec)) [defaultDoc] [] 1).2.2 (defaultDoc, 0)
      (by decide)).1,
    le_refl 0⟩

/-- C8, confirmed.  Searching an unbuilt index (`self.index is None`) or an
index holding zero vectors returns the empty list for every query and
every `k`; no error path exists. -/
theorem search_empty_index_returns_empty (embedQ : Str → Vec)
    (docs : List Doc) (query : Str) (k : Nat) :
    vsSearch embedQ ⟨none, docs⟩ query k = [] ∧
    vsSearch embedQ ⟨some [], docs⟩ query k = [] :=
  ⟨rfl, rfl⟩

/-- C9, corrected.  The `sources` list of the result bundle contains one
citation per retrieved `(chunk, score)` pair whose source path occurs among
the accepted chunks' paths — so a path shared by several retrieved chunks
is cited several times.  First conjunct: every citation's path belongs to
the accepted set, and the citation carries the original score of a
retrieved chunk with that path and its 200-character preview with the
`...` marker.  Second conjunct: every retrieved pair whose path is
accepted contributes its citation. -/
theorem sources_characterized (llm : Str → Except Str Str) (query : Str)
    (retrieved : List (Doc × ℚ)) :
    (∀ c ∈ (answer_question llm query retrieved).sources,
      c.filepath ∈ (select_chunks_within_limit retrieved query).map
        Doc.filepath ∧
      ∃ p ∈ retrieved, p.1.filepath = c.filepath ∧ c.score = p.2 ∧
        c.preview = p.1.content.take 200 ++ ellipsis) ∧
    (∀ p ∈ retrieved,
      p.1.filepath ∈ (select_chunks_within_limit retrieved query).map
        Doc.filepath →
      mkCitation p.1 p.2 ∈ (answer_question llm query retrieved).sources) := by
  have hsrc : (answer_question llm query retrieved).sources =
      retrieved.filterMap fun p =>
        if p.1.filepath ∈ (select_chunks_within_limit retrieved query).map
            Doc.filepath then
          some (mkCitation p.1 p.2)
        else none := rfl
  constructor
  · intro c hc
    rw [hsrc] at hc
    obtain ⟨p, hp, hf⟩ := List.mem_filterMap.mp hc
    by_cases hin : p.1.filepath ∈
        (select_chunks_within_limit retrieved query).map Doc.filepath
    · rw [if_pos hin] at hf
      have hcp : c = mkCitation p.1 p.2 := by simpa using hf.symm
      subst hcp
      exact ⟨hin, p, hp, rfl, rfl, rfl⟩
    · rw [if_neg hin] at hf
      exact absurd hf (by simp)
  · intro p hp hin
    rw [hsrc]
    exact List.mem_filterMap.mpr ⟨p, hp, by rw [if_pos hin]⟩

lemma chunkCost_smallDocA : chunkCost 1 smallDocA = 33 := by
  rw [chunkCost_small 1 smallDocA length_digits_one]
  have h1 : smallDocA.filepath.length = 4 := rfl
  have h2 : smallDocA.content.length = 100 := by
    show (List.replicate 100 'x').length = 100
    exact List.length_replicate 100 'x'
  rw [h1, h2]

lemma chunkCost_smallDocB : chunkCost 2 smallDocB = 31 := by
  rw [chunkCost_small 2 smallDocB length_digits_two]
  have h1 : smallDocB.filepath.length = 4 := rfl
  have h2 : smallDocB.content.length = 90 := by
    show (List.replicate 90 'y').length = 90
    exact List.length_replicate 90 'y'
  rw [h1, h2]

/-- Evaluation of the selection on the two same-path chunks: both fit the
9674 remaining tokens (costs 33 and 31), so both are accepted. -/
lemma select_twoSamePath_eval :
    select_chunks_within_limit twoSamePath [] = [smallDocA, smallDocB] := by
  have hsort : sortByDistance twoSamePath = twoSamePath := by
    norm_num [sortByDistance, twoSamePath, List.insertionSort,
      List.orderedInsert]
  have hA : chunkCost (([] : List Doc).length + 1) smallDocA = 33 :=
    chunkCost_smallDocA
  have hB : chunkCost ((([] : List Doc) ++ [smallDocA]).length + 1)
      smallDocB = 31 := chunkCost_smallDocB
  rw [select_chunks_within_limit, availableTokens_nil, hsort, twoSamePath]
  rw [selectLoop_accept 9674 smallDocA (1 / 10) _ [] 0 33 hA (by norm_num)]
  rw [selectLoop_accept 9674 smallDocB (2 / 10) _ _ _ 31 hB (by norm_num)]
  rw [selectLoop]
  simp

/-- The resulting citation list: one citation per retrieved chunk, both
with path `a.py`. -/
lemma sources_twoSamePath_eval :
    (answer_question llmOk [] twoSamePath).sources =
      [mkCitation smallDocA (1 / 10), mkCitation smallDocB (2 / 10)] := by
  have hsrc : (answer_question llmOk [] twoSamePath).sources =
      twoSamePath.filterMap fun p =>
        if p.1.filepath ∈ (select_chunks_within_limit twoSamePath []).map
            Doc.filepath then
          some (mkCitation p.1 p.2)
        else none := rfl
  rw [hsrc, select_twoSamePath_eval]
  rw [show twoSamePath = [(smallDocA, (1 : ℚ) / 10), (smallDocB, 2 / 10)]
    from rfl]
  rw [List.filterMap_cons, List.filterMap_cons, List.filterMap_nil]
  rw [if_pos (by decide), if_pos (by decide)]

/-- C9 as stated is false: with two retrieved chunks sharing the source
path `a.py` and both accepted, the citation list carries the path twice —
not exactly once per distinct accepted path. -/
theorem duplicate_citations_for_one_path :
    (answer_question llmOk [] twoSamePath).sources.map Citation.filepath =
      [fpA, fpA] ∧
    ¬ ((answer_question llmOk [] twoSamePath).sources.map
        Citation.filepath).Nodup := by
  rw [sources_twoSamePath_eval]
  constructor
  · rfl
  · decide

/-- Witness for `sources_characterized`: the first of the two same-path
chunks contributes its citation. -/
theorem sources_characterized_witness :
    (smallDocA, (1 : ℚ) / 10) ∈ twoSamePath ∧
    mkCitation smallDocA ((1 : ℚ) / 10) ∈
      (answer_question llmOk [] twoSamePath).sources :=
  ⟨List.mem_cons_self _ _,
    (sources_characterized llmOk [] twoSamePath).2 (smallDocA, (1 : ℚ) / 10)
      (List.mem_cons_self _ _)
      (by rw [select_twoSamePath_eval]; decide)⟩

/-- Frame behaviour of the heap-level selection loop: the heap either comes
back unchanged, or it is extended by exactly one fresh dictionary — the
copy of a candidate with (possibly) truncated content — and the selection
consists of just that fresh address.  Original heap cells are never
written. -/
lemma selectLoopH_frame (avail : Int) (heap : List Doc)
    (l : List (Nat × ℚ)) :
    ∀ sel cur,
      (selectLoopH avail heap l sel cur).1 = heap ∨
      ∃ a s tc, (a, s) ∈ l ∧
        selectLoopH avail heap l sel cur =
          (heap ++ [{ heap.getD a defaultDoc with content := tc }],
            [heap.length]) ∧
        (tc = (heap.getD a defaultDoc).content.take
            (((avail - (count_tokens (truncHeader (heap.getD a defaultDoc).filepath) : Int)) * 3).toNat) ++ ellipsis ∨
          tc = (heap.getD a defaultDoc).content) := by
  induction l with
  | nil => intro sel cur; exact Or.inl rfl
  | cons hd rest ih =>
    obtain ⟨addr, s⟩ := hd
    intro sel cur
    by_cases hfit : (cur : Int) +
        (chunkCost (sel.length + 1) (heap.getD addr defaultDoc) : Int) ≤ avail
    · have hstep : selectLoopH avail heap ((addr, s) :: rest) sel cur =
          selectLoopH avail heap rest (sel ++ [addr])
            (cur + chunkCost (sel.length + 1) (heap.getD addr defaultDoc)) := by
        simp only [selectLoopH]
        rw [if_pos hfit]
      rw [hstep]
      rcases ih (sel ++ [addr])
          (cur + chunkCost (sel.length + 1) (heap.getD addr defaultDoc)) with
        h | ⟨a, s', tc, hmem, heq, htc⟩
      · exact Or.inl h
      · exact Or.inr ⟨a, s', tc, List.mem_cons_of_mem _ hmem, heq, htc⟩
    · by_cases hg : sel.length = 0 ∧ 200 < avail
      · have hsel : sel = [] := List.eq_nil_of_length_eq_zero hg.1
        subst hsel
        by_cases h50 : 50 < avail -
            (count_tokens (truncHeader (heap.getD addr defaultDoc).filepath) : Int)
        · refine Or.inr ⟨addr, s,
            (if (avail - (count_tokens (truncHeader (heap.getD addr defaultDoc).filepath) : Int)) * 3 <
                ((heap.getD addr defaultDoc).content.length : Int) then
              ((heap.getD addr defaultDoc).content.take ((avail - (count_tokens (truncHeader (heap.getD addr defaultDoc).filepath) : Int)) * 3).toNat) ++ ellipsis
            else (heap.getD addr defaultDoc).content),
            List.mem_cons_self _ _, ?_, ?_⟩
          · simp only [selectLoopH]
            rw [if_neg hfit, if_pos hg, if_pos h50]
            simp
          · by_cases hlong : (avail - (count_tokens (truncHeader (heap.getD addr defaultDoc).filepath) : Int)) * 3 <
                ((heap.getD addr defaultDoc).content.length : Int)
            · exact Or.inl (if_pos hlong)
            · exact Or.inr (if_neg hlong)
        · refine Or.inl ?_
          simp only [selectLoopH]
          rw [if_neg hfit, if_pos hg, if_neg h50]
      · refine Or.inl ?_
        simp only [selectLoopH]
        rw [if_neg hfit, if_neg hg]

/-- C10, confirmed.  The heap-level run of `select_chunks_within_limit`
never mutates an existing chunk dictionary: the original heap is preserved
as a prefix of the final heap (so every input dictionary, including every
candidate, is unchanged), and at most one fresh dictionary is allocated —
the `doc.copy()` of the truncation branch, whose content is the truncated
text with the `...` marker (or, in the degenerate arithmetic case, the
copied content itself) and whose address is the sole selected address,
while the original candidate keeps its full content at its old address. -/
theorem select_chunks_no_mutation (heap : List Doc)
    (retrieved : List (Nat × ℚ)) (query : Str) :
    (select_chunks_within_limitH heap retrieved query).1.take heap.length =
      heap ∧
    ((select_chunks_within_limitH heap retrieved query).1 = heap ∨
      ∃ a s tc, (a, s) ∈ retrieved ∧
        select_chunks_within_limitH heap retrieved query =
          (heap ++ [{ heap.getD a defaultDoc with content := tc }],
            [heap.length]) ∧
        (tc = (heap.getD a defaultDoc).content.take
            (((availableTokens query - (count_tokens (truncHeader (heap.getD a defaultDoc).filepath) : Int)) * 3).toNat) ++ ellipsis ∨
          tc = (heap.getD a defaultDoc).content)) := by
  rcases selectLoopH_frame (availableTokens query) heap
      (List.insertionSort (fun a b => a.2 ≤ b.2) retrieved) [] 0 with
    h | ⟨a, s, tc, hmem, heq, htc⟩
  · have h' : (select_chunks_within_limitH heap retrieved query).1 = heap := h
    exact ⟨by rw [h']; exact List.take_length heap, Or.inl h'⟩
  · have heq' : select_chunks_within_limitH heap retrieved query =
        (heap ++ [{ heap.getD a defaultDoc with content := tc }],
          [heap.length]) := heq
    refine ⟨?_, Or.inr ⟨a, s, tc, (List.mem_insertionSort _).mp hmem, heq', htc⟩⟩
    rw [heq']
    exact List.take_left heap _

end CodeQueryX
